import Mathlib

/-!
Shallow embedding of the kaken-api-client-typescript core:
the cached/retrying fetch orchestrator (src/client.ts), the MD5-keyed
response cache (src/cache.ts), and the researcher JSON normalizer
(src/api/researchers.ts), together with the start-index validation and
status mapping of the two search pipelines.

JavaScript numbers that the embedded code only compares or shifts by
small integer amounts are modelled as Int; byte buffers as List Nat;
thrown exceptions as Except values.
-/

deriving instance DecidableEq for Except

namespace Kaken

/-- An HTTP response as the orchestrator sees it: status plus body bytes.
`Response.ok` in the Fetch API is `200 <= status < 300`. -/
structure Resp where
  status : Nat
  body : List Nat
  deriving DecidableEq, Repr

/-- `Response.ok` of the Web Fetch API. -/
def Resp.ok (r : Resp) : Bool := 200 ≤ r.status && r.status < 300

/-- The `lastError` values the retry loop of `createCachedFetch` can hold:
the initial sentinel, a thrown transport error (including timeouts), or the
`Error` built from a non-ok HTTP status. -/
inductive FetchErr where
  | unexpectedNoAttempts
  | thrown (msg : String)
  | httpStatus (status : Nat)
  deriving DecidableEq, Repr

/-- Observable trace of one `cachedFetch(url)` call: the outcome, how many
times the injected transport ran, the sleeps performed before retries, and
the cache writes performed. -/
structure Trace where
  result : Except FetchErr Resp
  invocations : Nat
  delays : List Nat
  cacheWrites : List (String × List Nat)
  deriving DecidableEq, Repr

/-- `BASE_RETRY_DELAY_MS` from src/client.ts. -/
def BASE_RETRY_DELAY_MS : Nat := 1000

/-- `MAX_RETRY_DELAY_MS` from src/client.ts. -/
def MAX_RETRY_DELAY_MS : Nat := 30000

/-- The delay computed before retry attempt `attempt` (line 106 of
src/client.ts): `Math.min(BASE_RETRY_DELAY_MS * 2 ** (attempt - 1), MAX_RETRY_DELAY_MS)`. -/
def retryDelay (attempt : Nat) : Nat :=
  min (BASE_RETRY_DELAY_MS * 2 ^ (attempt - 1)) MAX_RETRY_DELAY_MS

/-- One transport attempt either throws (connection error / timeout,
both surfaced as a rejected promise) or yields a `Resp`. The transport is
modelled as a function from the attempt number to its outcome. -/
abbrev Transport := Nat → Except String Resp

/-- The retry loop of `createCachedFetch` (src/client.ts lines 102-140),
with `remaining` the number of loop iterations left
(`maxRetries + 1 - attempt`). Each iteration: sleep when `attempt > 0`,
run the transport, propagate thrown errors to `lastError` and continue,
return 4xx responses unmodified, treat other non-ok responses as
transient, and on an ok response write the body to the cache (when
enabled) and return. -/
def fetchLoop (fetchFn : Transport) (useCache : Bool) (url : String) :
    Nat → Nat → FetchErr → Nat → List Nat → Trace
  | _, 0, lastError, invs, delays => ⟨.error lastError, invs, delays, []⟩
  | attempt, remaining + 1, _lastError, invs, delays =>
    let delays' := if attempt > 0 then delays ++ [retryDelay attempt] else delays
    match fetchFn attempt with
    | .error msg =>
        fetchLoop fetchFn useCache url (attempt + 1) remaining (.thrown msg) (invs + 1) delays'
    | .ok response =>
        if 400 ≤ response.status ∧ response.status < 500 then
          ⟨.ok response, invs + 1, delays', []⟩
        else if ¬ response.ok then
          fetchLoop fetchFn useCache url (attempt + 1) remaining
            (.httpStatus response.status) (invs + 1) delays'
        else
          ⟨.ok response, invs + 1, delays', if useCache then [(url, response.body)] else []⟩

/-- The function returned by `createCachedFetch` (src/client.ts lines
92-141): cache-first short-circuit (a cached body is replayed as a fresh
status-200 response), then the retry loop with `maxRetries + 1` total
iterations starting from the sentinel `lastError`. -/
def cachedFetch (cacheGet : String → Option (List Nat)) (useCache : Bool)
    (fetchFn : Transport) (maxRetries : Nat) (url : String) : Trace :=
  if useCache then
    match cacheGet url with
    | some cached => ⟨.ok ⟨200, cached⟩, 0, [], []⟩
    | none => fetchLoop fetchFn useCache url 0 (maxRetries + 1) .unexpectedNoAttempts 0 []
  else
    fetchLoop fetchFn useCache url 0 (maxRetries + 1) .unexpectedNoAttempts 0 []

/-- A transport outcome the orchestrator treats as transient in the sense
of claim C1: a thrown error / timeout, or a response with status ≥ 500. -/
def transientFail (o : Except String Resp) : Bool :=
  match o with
  | .error _ => true
  | .ok r => 500 ≤ r.status

/-- The `lastError` recorded for a failed attempt: the thrown error
itself, or `Error('HTTP <status>')` for a non-ok response. -/
def errOf (o : Except String Resp) : FetchErr :=
  match o with
  | .error msg => .thrown msg
  | .ok r => .httpStatus r.status

/-- The delays appended by iterations `attempt, attempt+1, …, attempt+k`
of the retry loop: one sleep before every iteration whose index is
positive. -/
def delaysFor : Nat → Nat → List Nat
  | attempt, 0 => if attempt > 0 then [retryDelay attempt] else []
  | attempt, k + 1 =>
      (if attempt > 0 then [retryDelay attempt] else []) ++ delaysFor (attempt + 1) k

/-- The typed errors of src/exceptions.ts that the search pipelines raise:
`KakenApiRequestError`, `KakenApiNotFoundError`, `KakenApiResponseError`
(each carrying a message and, where given, an HTTP status code). -/
inductive ApiError where
  | requestError (msg : String) (statusCode : Option Nat)
  | notFoundError (msg : String) (statusCode : Nat)
  | responseError (msg : String) (statusCode : Option Nat)
  deriving DecidableEq, Repr

/-- `DEFAULTS.START_INDEX` from src/constants.ts. -/
def DEFAULTS.START_INDEX : Int := 1

/-- `LIMITS.MAX_PROJECTS_RESULTS` from src/constants.ts. -/
def LIMITS.MAX_PROJECTS_RESULTS : Int := 200000

/-- `LIMITS.MAX_RESEARCHERS_RESULTS` from src/constants.ts. -/
def LIMITS.MAX_RESEARCHERS_RESULTS : Int := 1000

/-- The shared body of `ProjectsAPI.resolveStartIndex` and
`ResearchersAPI.resolveStartIndex` (identical except for the limit):
default the index to `DEFAULTS.START_INDEX`, throw a
`KakenApiRequestError` when it exceeds the endpoint maximum, and clamp
values below 1 back to the default. -/
def resolveStartIndexWithLimit (maxResults : Int) (startIndex : Option Int) :
    Except ApiError Int :=
  let idx := startIndex.getD DEFAULTS.START_INDEX
  if idx > maxResults then
    .error (.requestError ("Start index cannot exceed " ++ toString maxResults ++ ".") none)
  else
    .ok (if idx < 1 then DEFAULTS.START_INDEX else idx)

/-- `ProjectsAPI.resolveStartIndex` (src/api/projects.ts lines 144-150). -/
def ProjectsAPI.resolveStartIndex : Option Int → Except ApiError Int :=
  resolveStartIndexWithLimit LIMITS.MAX_PROJECTS_RESULTS

/-- `ResearchersAPI.resolveStartIndex` (src/api/researchers.ts lines 163-169). -/
def ResearchersAPI.resolveStartIndex : Option Int → Except ApiError Int :=
  resolveStartIndexWithLimit LIMITS.MAX_RESEARCHERS_RESULTS

/-- The message text a `FetchErr` surfaces with when the search pipeline
wraps it into a `KakenApiRequestError`. -/
def FetchErr.message : FetchErr → String
  | .unexpectedNoAttempts => "Unexpected: no retry attempts were made"
  | .thrown msg => msg
  | .httpStatus status => "HTTP " ++ toString status

/-- Observable outcome of one `search` call: the typed result (body bytes
on success, before wire-format parsing, which no claim here depends on)
and the number of transport invocations performed. -/
structure SearchTrace where
  result : Except ApiError (List Nat)
  invocations : Nat
  deriving DecidableEq, Repr

/-- The search pipeline shared by `ProjectsAPI.search` and
`ResearchersAPI.search` up to wire-format parsing: parameter validation
(`validateParams`, abstracted to whether some condition is present),
start-index resolution, the cached/retrying fetch, `doFetch`'s wrapping of
thrown transport errors into `KakenApiRequestError`, then the
404 → `KakenApiNotFoundError` and non-ok → `KakenApiRequestError` status
mapping before the body is read. -/
def searchModelWithLimit (maxResults : Int) (hasCondition : Bool) (startIndex : Option Int)
    (cacheGet : String → Option (List Nat)) (useCache : Bool) (fetchFn : Transport)
    (maxRetries : Nat) (url : String) : SearchTrace :=
  if ¬ hasCondition then
    ⟨.error (.requestError
        "Either keyword or at least one search parameter must be provided." none), 0⟩
  else
    match resolveStartIndexWithLimit maxResults startIndex with
    | .error e => ⟨.error e, 0⟩
    | .ok _ =>
      let t := cachedFetch cacheGet useCache fetchFn maxRetries url
      match t.result with
      | .error e =>
          ⟨.error (.requestError ("Request failed: " ++ e.message) none), t.invocations⟩
      | .ok response =>
          if response.status = 404 then
            ⟨.error (.notFoundError "Resource not found." 404), t.invocations⟩
          else if ¬ response.ok then
            ⟨.error (.requestError ("HTTP error: " ++ toString response.status)
                (some response.status)), t.invocations⟩
          else
            ⟨.ok response.body, t.invocations⟩

/-- `ProjectsAPI.search` (src/api/projects.ts lines 49-93) up to XML parsing. -/
def ProjectsAPI.searchModel (hasCondition : Bool) (startIndex : Option Int)
    (cacheGet : String → Option (List Nat)) (useCache : Bool) (fetchFn : Transport)
    (maxRetries : Nat) (url : String) : SearchTrace :=
  searchModelWithLimit LIMITS.MAX_PROJECTS_RESULTS hasCondition startIndex cacheGet useCache
    fetchFn maxRetries url

/-- `ResearchersAPI.search` (src/api/researchers.ts lines 77-118) up to JSON parsing. -/
def ResearchersAPI.searchModel (hasCondition : Bool) (startIndex : Option Int)
    (cacheGet : String → Option (List Nat)) (useCache : Bool) (fetchFn : Transport)
    (maxRetries : Nat) (url : String) : SearchTrace :=
  searchModelWithLimit LIMITS.MAX_RESEARCHERS_RESULTS hasCondition startIndex cacheGet useCache
    fetchFn maxRetries url

lemma resp_ok_iff (r : Resp) : r.ok = true ↔ 200 ≤ r.status ∧ r.status < 300 := by
  simp [Resp.ok]

lemma delays_append (attempt k : Nat) (delays : List Nat) :
    (if attempt > 0 then delays ++ [retryDelay attempt] else delays) ++
        delaysFor (attempt + 1) k =
      delays ++ delaysFor attempt (k + 1) := by
  by_cases ha : attempt > 0 <;> simp [delaysFor, ha, List.append_assoc]

lemma cachedFetch_miss (cacheGet : String → Option (List Nat)) (fetchFn : Transport)
    (maxRetries : Nat) (url : String) (hmiss : cacheGet url = none) :
    cachedFetch cacheGet true fetchFn maxRetries url =
      fetchLoop fetchFn true url 0 (maxRetries + 1) .unexpectedNoAttempts 0 [] := by
  simp [cachedFetch, hmiss]

/-- If the transport fails transiently on the `k` attempts starting at
`attempt` and then returns an ok response, the retry loop stops there:
`k + 1` further invocations, the corresponding backoff sleeps, and one
cache write when caching is on. -/
lemma fetchLoop_success (fetchFn : Transport) (useCache : Bool) (url : String) (r : Resp) :
    ∀ (k attempt remaining : Nat) (lastError : FetchErr) (invs : Nat) (delays : List Nat),
      k < remaining →
      (∀ i, i < k → transientFail (fetchFn (attempt + i)) = true) →
      fetchFn (attempt + k) = .ok r →
      r.ok = true →
      fetchLoop fetchFn useCache url attempt remaining lastError invs delays =
        ⟨.ok r, invs + (k + 1), delays ++ delaysFor attempt k,
          if useCache then [(url, r.body)] else []⟩ := by
  intro k
  induction k with
  | zero =>
    intro attempt remaining lastError invs delays hrem _htrans hk hok
    obtain ⟨rem, rfl⟩ : ∃ rem, remaining = rem + 1 := ⟨remaining - 1, by omega⟩
    rw [Nat.add_zero] at hk
    have hs := (resp_ok_iff r).mp hok
    simp only [fetchLoop, hk]
    rw [if_neg (by omega : ¬ (400 ≤ r.status ∧ r.status < 500)), if_neg (by simp [hok])]
    by_cases ha : attempt > 0 <;> simp [delaysFor, ha]
  | succ k ih =>
    intro attempt remaining lastError invs delays hrem htrans hk hok
    obtain ⟨rem, rfl⟩ : ∃ rem, remaining = rem + 1 := ⟨remaining - 1, by omega⟩
    have htrans0 : transientFail (fetchFn attempt) = true := by
      simpa using htrans 0 (by omega)
    have hk' : fetchFn (attempt + 1 + k) = .ok r := by
      rw [show attempt + 1 + k = attempt + (k + 1) by omega]; exact hk
    have htrans' : ∀ i, i < k → transientFail (fetchFn (attempt + 1 + i)) = true := by
      intro i hi
      have h := htrans (i + 1) (by omega)
      rwa [show attempt + (i + 1) = attempt + 1 + i by omega] at h
    have harith : invs + 1 + (k + 1) = invs + (k + 1 + 1) := by omega
    cases hfa : fetchFn attempt with
    | error msg =>
      simp only [fetchLoop, hfa]
      rw [ih (attempt + 1) rem (.thrown msg) (invs + 1)
            (if attempt > 0 then delays ++ [retryDelay attempt] else delays)
            (by omega) htrans' hk' hok]
      rw [harith, delays_append]
    | ok rr =>
      have h5 : 500 ≤ rr.status := by simpa [transientFail, hfa] using htrans0
      simp only [fetchLoop, hfa]
      rw [if_neg (by omega : ¬ (400 ≤ rr.status ∧ rr.status < 500)),
        if_pos (by simp [resp_ok_iff]; omega)]
      rw [ih (attempt + 1) rem (.httpStatus rr.status) (invs + 1)
            (if attempt > 0 then delays ++ [retryDelay attempt] else delays)
            (by omega) htrans' hk' hok]
      rw [harith, delays_append]

/-- One step of the retry loop when the transport throws. -/
lemma fetchLoop_step_throw {fetchFn : Transport} {attempt : Nat} {msg : String}
    (hfa : fetchFn attempt = .error msg) (useCache : Bool) (url : String)
    (remaining : Nat) (lastError : FetchErr) (invs : Nat) (delays : List Nat) :
    fetchLoop fetchFn useCache url attempt (remaining + 1) lastError invs delays =
      fetchLoop fetchFn useCache url (attempt + 1) remaining (.thrown msg) (invs + 1)
        (if attempt > 0 then delays ++ [retryDelay attempt] else delays) := by
  simp only [fetchLoop, hfa]

/-- One step of the retry loop on a transient (status ≥ 500) response. -/
lemma fetchLoop_step_server {fetchFn : Transport} {attempt : Nat} {rr : Resp}
    (hfa : fetchFn attempt = .ok rr) (h5 : 500 ≤ rr.status) (useCache : Bool) (url : String)
    (remaining : Nat) (lastError : FetchErr) (invs : Nat) (delays : List Nat) :
    fetchLoop fetchFn useCache url attempt (remaining + 1) lastError invs delays =
      fetchLoop fetchFn useCache url (attempt + 1) remaining (.httpStatus rr.status) (invs + 1)
        (if attempt > 0 then delays ++ [retryDelay attempt] else delays) := by
  simp only [fetchLoop, hfa]
  rw [if_neg (by omega : ¬ (400 ≤ rr.status ∧ rr.status < 500)),
    if_pos (by simp [resp_ok_iff]; omega)]

/-- If every one of the `n + 1` remaining attempts fails transiently, the
retry loop exhausts its budget and raises the error recorded for the last
attempt, with no cache write. -/
lemma fetchLoop_exhaust (fetchFn : Transport) (useCache : Bool) (url : String) :
    ∀ (n attempt : Nat) (lastError : FetchErr) (invs : Nat) (delays : List Nat),
      (∀ i, i ≤ n → transientFail (fetchFn (attempt + i)) = true) →
      fetchLoop fetchFn useCache url attempt (n + 1) lastError invs delays =
        ⟨.error (errOf (fetchFn (attempt + n))), invs + (n + 1),
          delays ++ delaysFor attempt n, []⟩ := by
  intro n
  induction n with
  | zero =>
    intro attempt lastError invs delays htrans
    have h0 : transientFail (fetchFn attempt) = true := by
      simpa using htrans 0 (by omega)
    rw [Nat.add_zero]
    cases hfa : fetchFn attempt with
    | error msg =>
      rw [fetchLoop_step_throw hfa]
      by_cases ha : attempt > 0 <;> simp [fetchLoop, delaysFor, errOf, hfa, ha]
    | ok rr =>
      have h5 : 500 ≤ rr.status := by simpa [transientFail, hfa] using h0
      rw [fetchLoop_step_server hfa h5]
      by_cases ha : attempt > 0 <;> simp [fetchLoop, delaysFor, errOf, hfa, ha]
  | succ n ih =>
    intro attempt lastError invs delays htrans
    have h0 : transientFail (fetchFn attempt) = true := by
      simpa using htrans 0 (by omega)
    have htrans' : ∀ i, i ≤ n → transientFail (fetchFn (attempt + 1 + i)) = true := by
      intro i hi
      have h := htrans (i + 1) (by omega)
      rwa [show attempt + (i + 1) = attempt + 1 + i by omega] at h
    have hshift : attempt + 1 + n = attempt + (n + 1) := by omega
    have harith : invs + 1 + (n + 1) = invs + (n + 1 + 1) := by omega
    cases hfa : fetchFn attempt with
    | error msg =>
      rw [fetchLoop_step_throw hfa]
      rw [ih (attempt + 1) (.thrown msg) (invs + 1)
            (if attempt > 0 then delays ++ [retryDelay attempt] else delays) htrans']
      rw [hshift, harith, delays_append]
    | ok rr =>
      have h5 : 500 ≤ rr.status := by simpa [transientFail, hfa] using h0
      rw [fetchLoop_step_server hfa h5]
      rw [ih (attempt + 1) (.httpStatus rr.status) (invs + 1)
            (if attempt > 0 then delays ++ [retryDelay attempt] else delays) htrans']
      rw [hshift, harith, delays_append]

lemma delaysFor_pos : ∀ (k a : Nat),
    delaysFor (a + 1) k = (List.range (k + 1)).map (fun i => retryDelay (a + 1 + i)) := by
  intro k
  induction k with
  | zero => intro a; simp [delaysFor, List.range_succ_eq_map]
  | succ k ih =>
    intro a
    have hstep : delaysFor (a + 1) (k + 1) = retryDelay (a + 1) :: delaysFor (a + 2) k := by
      simp [delaysFor]
    rw [hstep, ih (a + 1)]
    conv_rhs => rw [List.range_succ_eq_map]
    rw [List.map_cons, List.map_map]
    congr 1
    refine List.map_congr_left fun i _ => ?_
    show retryDelay (a + 1 + 1 + i) = retryDelay (a + 1 + (i + 1))
    congr 1
    omega

lemma delaysFor_zero (k : Nat) :
    delaysFor 0 k = (List.range k).map (fun n => min (1000 * 2 ^ n) 30000) := by
  cases k with
  | zero => rfl
  | succ m =>
    have h := delaysFor_pos m 0
    rw [show delaysFor 0 (m + 1) = delaysFor 1 m by simp [delaysFor]]
    rw [show (0 : Nat) + 1 = 1 from rfl] at h
    rw [h]
    apply List.map_congr_left
    intro i _
    show retryDelay (1 + i) = min (1000 * 2 ^ i) 30000
    rw [Nat.add_comm 1 i]
    rfl

/-- Claim C1: with no usable cache entry, if the transport fails
transiently (throws, times out, or returns status ≥ 500) on exactly `k`
consecutive attempts with `k ≤ maxRetries` and then returns an ok
response, `cachedFetch` returns that success after exactly `k + 1`
transport invocations; if all `maxRetries + 1` attempts fail transiently,
it raises the last observed error after exactly `maxRetries + 1`
invocations. -/
theorem retry_boundary (cacheGet : String → Option (List Nat)) (fetchFn : Transport)
    (maxRetries k : Nat) (r : Resp) (url : String) (hmiss : cacheGet url = none) :
    (k ≤ maxRetries →
      (∀ i, i < k → transientFail (fetchFn i) = true) →
      fetchFn k = .ok r → r.ok = true →
      (cachedFetch cacheGet true fetchFn maxRetries url).result = .ok r ∧
      (cachedFetch cacheGet true fetchFn maxRetries url).invocations = k + 1) ∧
    ((∀ i, i ≤ maxRetries → transientFail (fetchFn i) = true) →
      (cachedFetch cacheGet true fetchFn maxRetries url).result =
          .error (errOf (fetchFn maxRetries)) ∧
      (cachedFetch cacheGet true fetchFn maxRetries url).invocations = maxRetries + 1) := by
  rw [cachedFetch_miss cacheGet fetchFn maxRetries url hmiss]
  constructor
  · intro hk htrans hok hrok
    rw [fetchLoop_success fetchFn true url r k 0 (maxRetries + 1) .unexpectedNoAttempts 0 []
        (by omega) (by intro i hi; simpa using htrans i hi) (by simpa using hok) hrok]
    exact ⟨rfl, by simp⟩
  · intro htrans
    rw [fetchLoop_exhaust fetchFn true url maxRetries 0 .unexpectedNoAttempts 0 []
        (by intro i hi; simpa using htrans i hi)]
    exact ⟨by simp, by simp⟩

/-- A transport that refuses twice and then succeeds, for the witnesses. -/
def exTransport : Transport := fun i =>
  if i < 2 then .error "ECONNRESET" else .ok ⟨200, [42]⟩

theorem retry_boundary_witness :
    ((cachedFetch (fun _ => none) true exTransport 3 "https://kaken.nii.ac.jp/").result =
        .ok ⟨200, [42]⟩ ∧
      (cachedFetch (fun _ => none) true exTransport 3 "https://kaken.nii.ac.jp/").invocations =
        3) ∧
    ((cachedFetch (fun _ => none) true (fun _ => .error "down") 2 "u").result =
        .error (.thrown "down") ∧
      (cachedFetch (fun _ => none) true (fun _ => .error "down") 2 "u").invocations = 3) := by
  constructor
  · exact (retry_boundary (fun _ => none) exTransport 3 2 ⟨200, [42]⟩
        "https://kaken.nii.ac.jp/" rfl).1 (by omega) (by decide) (by decide) (by decide)
  · exact (retry_boundary (fun _ => none) (fun _ => .error "down") 2 0 ⟨200, []⟩ "u" rfl).2
      (by intro i _; rfl)

/-- Claim C2: with no usable cache entry, a response whose status is in
[400, 500) is returned by `cachedFetch` after exactly one transport
invocation, unmodified, with no retry delay and no cache write; and in
the `ProjectsAPI.search` pipeline a 404 status is then mapped to the
typed `KakenApiNotFoundError` rather than retried. -/
theorem client_error_short_circuit (cacheGet : String → Option (List Nat))
    (fetchFn : Transport) (maxRetries : Nat) (r : Resp) (url : String)
    (hmiss : cacheGet url = none) (h0 : fetchFn 0 = .ok r)
    (h4 : 400 ≤ r.status) (h5 : r.status < 500) :
    cachedFetch cacheGet true fetchFn maxRetries url = ⟨.ok r, 1, [], []⟩ ∧
    (r.status = 404 →
      ProjectsAPI.searchModel true none cacheGet true fetchFn maxRetries url =
        ⟨.error (.notFoundError "Resource not found." 404), 1⟩) := by
  have hcf : cachedFetch cacheGet true fetchFn maxRetries url = ⟨.ok r, 1, [], []⟩ := by
    rw [cachedFetch_miss cacheGet fetchFn maxRetries url hmiss]
    simp only [fetchLoop, h0]
    rw [if_pos ⟨h4, h5⟩]
    simp
  refine ⟨hcf, fun h404 => ?_⟩
  have hres : resolveStartIndexWithLimit LIMITS.MAX_PROJECTS_RESULTS none =
      .ok DEFAULTS.START_INDEX := by decide
  simp only [ProjectsAPI.searchModel, searchModelWithLimit, hres, hcf]
  simp [h404]

theorem client_error_short_circuit_witness :
    cachedFetch (fun _ => none) true (fun _ => .ok ⟨404, [60]⟩) 3 "u" =
      ⟨.ok ⟨404, [60]⟩, 1, [], []⟩ ∧
    ProjectsAPI.searchModel true none (fun _ => none) true (fun _ => .ok ⟨404, [60]⟩) 3 "u" =
      ⟨.error (.notFoundError "Resource not found." 404), 1⟩ := by
  have h := client_error_short_circuit (fun _ => none) (fun _ => .ok ⟨404, [60]⟩) 3
    ⟨404, [60]⟩ "u" rfl rfl (by decide) (by decide)
  exact ⟨h.1, h.2 rfl⟩

/-- Claim C3: in the retry loop no delay precedes the first attempt; when
the run performs its retries the recorded delays are exactly
`min(1000 * 2^(n-1), 30000)` before the n-th retry, i.e. the sequence
1000, 2000, 4000, … capped at 30000. -/
theorem backoff_delays (cacheGet : String → Option (List Nat)) (fetchFn : Transport)
    (maxRetries : Nat) (url : String) (hmiss : cacheGet url = none) :
    ((∀ i, i ≤ maxRetries → transientFail (fetchFn i) = true) →
      (cachedFetch cacheGet true fetchFn maxRetries url).delays =
        (List.range maxRetries).map (fun n => min (1000 * 2 ^ n) 30000) ∧
      (∀ n, 1 ≤ n → n ≤ maxRetries →
        (cachedFetch cacheGet true fetchFn maxRetries url).delays[n - 1]? =
          some (min (1000 * 2 ^ (n - 1)) 30000))) ∧
    (∀ r : Resp, fetchFn 0 = .ok r → r.ok = true →
      (cachedFetch cacheGet true fetchFn maxRetries url).delays = []) := by
  rw [cachedFetch_miss cacheGet fetchFn maxRetries url hmiss]
  constructor
  · intro htrans
    rw [fetchLoop_exhaust fetchFn true url maxRetries 0 .unexpectedNoAttempts 0 []
        (by intro i hi; simpa using htrans i hi)]
    have hd : ([] : List Nat) ++ delaysFor 0 maxRetries =
        (List.range maxRetries).map (fun n => min (1000 * 2 ^ n) 30000) := by
      rw [List.nil_append, delaysFor_zero]
    refine ⟨hd, fun n h1 hn => ?_⟩
    show (([] : List Nat) ++ delaysFor 0 maxRetries)[n - 1]? = _
    rw [hd, List.getElem?_map, List.getElem?_range (by omega : n - 1 < maxRetries)]
    rfl
  · intro r hok hrok
    rw [fetchLoop_success fetchFn true url r 0 0 (maxRetries + 1) .unexpectedNoAttempts 0 []
        (by omega) (by omega) (by simpa using hok) hrok]
    rfl

theorem backoff_delays_witness :
    (cachedFetch (fun _ => none) true (fun _ => .error "down") 6 "u").delays =
        [1000, 2000, 4000, 8000, 16000, 30000] ∧
    (cachedFetch (fun _ => none) true (fun _ => .ok ⟨200, [7]⟩) 6 "u").delays = [] := by
  constructor
  · have h := ((backoff_delays (fun _ => none) (fun _ => .error "down") 6 "u" rfl).1
      (by intro i _; rfl)).1
    rw [h]
    decide
  · exact (backoff_delays (fun _ => none) (fun _ => .ok ⟨200, [7]⟩) 6 "u" rfl).2
      ⟨200, [7]⟩ rfl (by decide)

/-- Claim C9: for both search operations, a supplied startIndex below 1 is
silently replaced by the default 1; a startIndex above the endpoint
maximum (200000 for projects, 1000 for researchers) raises
`KakenApiRequestError` before any network activity (zero transport
invocations); and any in-range value passes through unchanged. -/
theorem start_index_resolution :
    (∀ idx : Int, idx < 1 →
      ProjectsAPI.resolveStartIndex (some idx) = .ok 1 ∧
      ResearchersAPI.resolveStartIndex (some idx) = .ok 1) ∧
    (∀ idx : Int, 1 ≤ idx → idx ≤ 200000 →
      ProjectsAPI.resolveStartIndex (some idx) = .ok idx) ∧
    (∀ idx : Int, 1 ≤ idx → idx ≤ 1000 →
      ResearchersAPI.resolveStartIndex (some idx) = .ok idx) ∧
    (∀ idx : Int, 200000 < idx →
      ProjectsAPI.resolveStartIndex (some idx) =
        .error (.requestError "Start index cannot exceed 200000." none) ∧
      ∀ (cacheGet : String → Option (List Nat)) (fetchFn : Transport)
        (maxRetries : Nat) (url : String),
        (ProjectsAPI.searchModel true (some idx) cacheGet true fetchFn
            maxRetries url).invocations = 0) ∧
    (∀ idx : Int, 1000 < idx →
      ResearchersAPI.resolveStartIndex (some idx) =
        .error (.requestError "Start index cannot exceed 1000." none) ∧
      ∀ (cacheGet : String → Option (List Nat)) (fetchFn : Transport)
        (maxRetries : Nat) (url : String),
        (ResearchersAPI.searchModel true (some idx) cacheGet true fetchFn
            maxRetries url).invocations = 0) := by
  have hmsgP : ("Start index cannot exceed " ++ toString LIMITS.MAX_PROJECTS_RESULTS ++ ".") =
      "Start index cannot exceed 200000." := by decide
  have hmsgR : ("Start index cannot exceed " ++ toString LIMITS.MAX_RESEARCHERS_RESULTS ++ ".") =
      "Start index cannot exceed 1000." := by decide
  refine ⟨fun idx h => ⟨?_, ?_⟩, fun idx h1 h2 => ?_, fun idx h1 h2 => ?_,
    fun idx h => ?_, fun idx h => ?_⟩
  · simp only [ProjectsAPI.resolveStartIndex, resolveStartIndexWithLimit, Option.getD_some]
    rw [if_neg (by simp [LIMITS.MAX_PROJECTS_RESULTS]; omega), if_pos h]
    rfl
  · simp only [ResearchersAPI.resolveStartIndex, resolveStartIndexWithLimit, Option.getD_some]
    rw [if_neg (by simp [LIMITS.MAX_RESEARCHERS_RESULTS]; omega), if_pos h]
    rfl
  · simp only [ProjectsAPI.resolveStartIndex, resolveStartIndexWithLimit, Option.getD_some]
    rw [if_neg (by simp [LIMITS.MAX_PROJECTS_RESULTS]; omega), if_neg (by omega)]
  · simp only [ResearchersAPI.resolveStartIndex, resolveStartIndexWithLimit, Option.getD_some]
    rw [if_neg (by simp [LIMITS.MAX_RESEARCHERS_RESULTS]; omega), if_neg (by omega)]
  · have herr : resolveStartIndexWithLimit LIMITS.MAX_PROJECTS_RESULTS (some idx) =
        .error (.requestError "Start index cannot exceed 200000." none) := by
      simp only [resolveStartIndexWithLimit, Option.getD_some]
      rw [if_pos (by simp [LIMITS.MAX_PROJECTS_RESULTS]; omega), hmsgP]
    refine ⟨herr, fun cacheGet fetchFn maxRetries url => ?_⟩
    simp [ProjectsAPI.searchModel, searchModelWithLimit, herr]
  · have herr : resolveStartIndexWithLimit LIMITS.MAX_RESEARCHERS_RESULTS (some idx) =
        .error (.requestError "Start index cannot exceed 1000." none) := by
      simp only [resolveStartIndexWithLimit, Option.getD_some]
      rw [if_pos (by simp [LIMITS.MAX_RESEARCHERS_RESULTS]; omega), hmsgR]
    refine ⟨herr, fun cacheGet fetchFn maxRetries url => ?_⟩
    simp [ResearchersAPI.searchModel, searchModelWithLimit, herr]

theorem start_index_resolution_witness :
    (ProjectsAPI.resolveStartIndex (some 0) = .ok 1 ∧
      ResearchersAPI.resolveStartIndex (some 0) = .ok 1) ∧
    ProjectsAPI.resolveStartIndex (some 157) = .ok 157 ∧
    ResearchersAPI.resolveStartIndex (some 157) = .ok 157 ∧
    ProjectsAPI.resolveStartIndex (some 200001) =
      .error (.requestError "Start index cannot exceed 200000." none) ∧
    (ProjectsAPI.searchModel true (some 200001) (fun _ => none) true
        (fun _ => .ok ⟨200, []⟩) 3 "u").invocations = 0 ∧
    ResearchersAPI.resolveStartIndex (some 1001) =
      .error (.requestError "Start index cannot exceed 1000." none) ∧
    (ResearchersAPI.searchModel true (some 1001) (fun _ => none) true
        (fun _ => .ok ⟨200, []⟩) 3 "u").invocations = 0 := by
  obtain ⟨hlow, hinP, hinR, hhiP, hhiR⟩ := start_index_resolution
  refine ⟨hlow 0 (by omega), hinP 157 (by omega) (by omega), hinR 157 (by omega) (by omega),
    (hhiP 200001 (by omega)).1, (hhiP 200001 (by omega)).2 _ _ _ _,
    (hhiR 1001 (by omega)).1, (hhiR 1001 (by omega)).2 _ _ _ _⟩


/-- Truncation to 32 bits, the word size of MD5 arithmetic. -/
def w32 (n : Nat) : Nat := n % 4294967296

def rotl32 (x s : Nat) : Nat := w32 ((x <<< s) ||| (x >>> (32 - s)))

def md5K : List Nat :=
  [0xd76aa478, 0xe8c7b756, 0x242070db, 0xc1bdceee,
   0xf57c0faf, 0x4787c62a, 0xa8304613, 0xfd469501,
   0x698098d8, 0x8b44f7af, 0xffff5bb1, 0x895cd7be,
   0x6b901122, 0xfd987193, 0xa679438e, 0x49b40821,
   0xf61e2562, 0xc040b340, 0x265e5a51, 0xe9b6c7aa,
   0xd62f105d, 0x02441453, 0xd8a1e681, 0xe7d3fbc8,
   0x21e1cde6, 0xc33707d6, 0xf4d50d87, 0x455a14ed,
   0xa9e3e905, 0xfcefa3f8, 0x676f02d9, 0x8d2a4c8a,
   0xfffa3942, 0x8771f681, 0x6d9d6122, 0xfde5380c,
   0xa4beea44, 0x4bdecfa9, 0xf6bb4b60, 0xbebfbc70,
   0x289b7ec6, 0xeaa127fa, 0xd4ef3085, 0x04881d05,
   0xd9d4d039, 0xe6db99e5, 0x1fa27cf8, 0xc4ac5665,
   0xf4292244, 0x432aff97, 0xab9423a7, 0xfc93a039,
   0x655b59c3, 0x8f0ccc92, 0xffeff47d, 0x85845dd1,
   0x6fa87e4f, 0xfe2ce6e0, 0xa3014314, 0x4e0811a1,
   0xf7537e82, 0xbd3af235, 0x2ad7d2bb, 0xeb86d391]

def md5S : List Nat :=
  [7, 12, 17, 22, 7, 12, 17, 22, 7, 12, 17, 22, 7, 12, 17, 22,
   5, 9, 14, 20, 5, 9, 14, 20, 5, 9, 14, 20, 5, 9, 14, 20,
   4, 11, 16, 23, 4, 11, 16, 23, 4, 11, 16, 23, 4, 11, 16, 23,
   6, 10, 15, 21, 6, 10, 15, 21, 6, 10, 15, 21, 6, 10, 15, 21]

def chunkWord (chunk : List Nat) (j : Nat) : Nat :=
  chunk.getD (4 * j) 0 + 256 * chunk.getD (4 * j + 1) 0 +
    65536 * chunk.getD (4 * j + 2) 0 + 16777216 * chunk.getD (4 * j + 3) 0

def md5Round (chunk : List Nat) (st : Nat × Nat × Nat × Nat) (i : Nat) :
    Nat × Nat × Nat × Nat :=
  let a := st.1
  let b := st.2.1
  let c := st.2.2.1
  let d := st.2.2.2
  let f :=
    if i < 16 then (b &&& c) ||| ((0xffffffff ^^^ b) &&& d)
    else if i < 32 then (d &&& b) ||| ((0xffffffff ^^^ d) &&& c)
    else if i < 48 then b ^^^ c ^^^ d
    else c ^^^ (b ||| (0xffffffff ^^^ d))
  let g :=
    if i < 16 then i
    else if i < 32 then (5 * i + 1) % 16
    else if i < 48 then (3 * i + 5) % 16
    else (7 * i) % 16
  let newB := w32 (b + rotl32 (w32 (a + f + md5K.getD i 0 + chunkWord chunk g)) (md5S.getD i 0))
  (d, newB, b, c)

def md5Chunk (st : Nat × Nat × Nat × Nat) (chunk : List Nat) : Nat × Nat × Nat × Nat :=
  let r := (List.range 64).foldl (md5Round chunk) st
  (w32 (st.1 + r.1), w32 (st.2.1 + r.2.1), w32 (st.2.2.1 + r.2.2.1), w32 (st.2.2.2 + r.2.2.2))

def leBytes : Nat → Nat → List Nat
  | 0, _ => []
  | k + 1, n => n % 256 :: leBytes k (n / 256)

def md5Pad (msg : List Nat) : List Nat :=
  let len := msg.length
  let zeros := (120 - (len + 1) % 64) % 64
  msg ++ [0x80] ++ List.replicate zeros 0 ++ leBytes 8 ((len * 8) % 18446744073709551616)

def chunks64 (l : List Nat) : List (List Nat) :=
  if hne : l = [] then []
  else (l.take 64) :: chunks64 (l.drop 64)
termination_by l.length
decreasing_by
  simp only [List.length_drop]
  have hl : 0 < l.length := List.length_pos.mpr hne
  omega

def md5Words (msg : List Nat) : Nat × Nat × Nat × Nat :=
  (chunks64 (md5Pad msg)).foldl md5Chunk (0x67452301, 0xefcdab89, 0x98badcfe, 0x10325476)

def md5Nat (msg : List Nat) : Nat :=
  w32 (md5Words msg).1 + w32 (md5Words msg).2.1 * 4294967296 +
    w32 (md5Words msg).2.2.1 * 18446744073709551616 +
    w32 (md5Words msg).2.2.2 * 79228162514264337593543950336

def hexDigit (n : Nat) : Char :=
  if n < 10 then Char.ofNat (48 + n) else Char.ofNat (87 + n)

def byteHexChars (b : Nat) : List Char := [hexDigit (b / 16), hexDigit (b % 16)]

def hexChars (n : Nat) : List Char := (leBytes 16 n).flatMap byteHexChars

def utf8Bytes (s : String) : List Nat := s.toUTF8.toList.map UInt8.toNat

def md5hex (s : String) : String := ⟨hexChars (md5Nat (utf8Bytes s))⟩

/-- The cache file name derived in `ResponseCache.getCacheFilePath`
(src/cache.ts lines 38-41): the MD5 hex digest of the URL with the
`.cache` suffix. This is the storage key of the claim. -/
def ResponseCache.getCacheFileName (url : String) : String := md5hex url ++ ".cache"

/-- `ResponseCache.getCacheFilePath`: the key joined under the cache
directory. -/
def ResponseCache.getCacheFilePath (cacheDir url : String) : String :=
  cacheDir ++ "/" ++ ResponseCache.getCacheFileName url

/-- The backing store a `ResponseCache` reads and writes: an association
list from file path to byte content, newest entry first (a write to an
existing path shadows it, as `writeFile` overwrites). -/
abbrev CacheFS := List (String × List Nat)

/-- `ResponseCache.get` (src/cache.ts lines 11-19): `null` when disabled
or when the file cannot be read, the stored bytes otherwise. -/
def ResponseCache.get (enabled : Bool) (cacheDir : String) (fs : CacheFS)
    (url : String) : Option (List Nat) :=
  if !enabled then none
  else fs.lookup (ResponseCache.getCacheFilePath cacheDir url)

/-- `ResponseCache.set` (src/cache.ts lines 21-26): a no-op when
disabled, otherwise stores the bytes under the derived file path. -/
def ResponseCache.set (enabled : Bool) (cacheDir : String) (fs : CacheFS)
    (url : String) (content : List Nat) : CacheFS :=
  if !enabled then fs
  else (ResponseCache.getCacheFilePath cacheDir url, content) :: fs

/-- The hex-digit value used by `hexVal` to invert `hexDigit`. -/
def hexVal (c : Char) : Nat :=
  if c.toNat ≥ 97 then c.toNat - 87 else c.toNat - 48

/-- Decoder for the two-characters-per-byte hex rendering. -/
def decodeHexChars : List Char → List Nat
  | c1 :: c2 :: rest => (hexVal c1 * 16 + hexVal c2) :: decodeHexChars rest
  | _ => []

/-- Recomposition of a little-endian byte list into a number. -/
def fromLEBytes : List Nat → Nat
  | [] => 0
  | b :: rest => b + 256 * fromLEBytes rest

lemma md5Nat_lt (msg : List Nat) : md5Nat msg < 2 ^ 128 := by
  have h : (2 : Nat) ^ 128 = 340282366920938463463374607431768211456 := by norm_num
  rw [h]
  simp only [md5Nat, w32]
  omega

lemma hexVal_hexDigit : ∀ d, d < 16 → hexVal (hexDigit d) = d := by decide

lemma leBytes_lt : ∀ (k n : Nat), ∀ b ∈ leBytes k n, b < 256 := by
  intro k
  induction k with
  | zero => intro n b hb; simp [leBytes] at hb
  | succ k ih =>
    intro n b hb
    simp only [leBytes, List.mem_cons] at hb
    rcases hb with hb | hb
    · omega
    · exact ih (n / 256) b hb

lemma decodeHexChars_bytes : ∀ bs : List Nat, (∀ b ∈ bs, b < 256) →
    decodeHexChars (bs.flatMap byteHexChars) = bs := by
  intro bs
  induction bs with
  | nil => intro _; rfl
  | cons b rest ih =>
    intro h
    have hb : b < 256 := h b (by simp)
    show decodeHexChars
        (hexDigit (b / 16) :: hexDigit (b % 16) :: rest.flatMap byteHexChars) = b :: rest
    rw [decodeHexChars, hexVal_hexDigit _ (by omega), hexVal_hexDigit _ (by omega),
      ih (fun x hx => h x (by simp [hx]))]
    congr 1
    omega

lemma fromLEBytes_leBytes : ∀ (k n : Nat), n < 256 ^ k → fromLEBytes (leBytes k n) = n := by
  intro k
  induction k with
  | zero =>
    intro n h
    rw [pow_zero] at h
    have hn : n = 0 := by omega
    simp [hn, leBytes, fromLEBytes]
  | succ k ih =>
    intro n h
    have hp : (256 : Nat) ^ (k + 1) = 256 ^ k * 256 := pow_succ 256 k
    rw [hp] at h
    have hd : n / 256 < 256 ^ k := by omega
    simp only [leBytes, fromLEBytes, ih (n / 256) hd]
    omega

lemma hexChars_inj {n1 n2 : Nat} (h1 : n1 < 2 ^ 128) (h2 : n2 < 2 ^ 128)
    (h : hexChars n1 = hexChars n2) : n1 = n2 := by
  have hb : (256 : Nat) ^ 16 = 2 ^ 128 := by norm_num
  have e1 := decodeHexChars_bytes (leBytes 16 n1) (leBytes_lt 16 n1)
  have e2 := decodeHexChars_bytes (leBytes 16 n2) (leBytes_lt 16 n2)
  have hle : leBytes 16 n1 = leBytes 16 n2 := by
    rw [← e1, ← e2]
    exact congrArg decodeHexChars h
  have := congrArg fromLEBytes hle
  rwa [fromLEBytes_leBytes 16 n1 (by omega), fromLEBytes_leBytes 16 n2 (by omega)] at this

lemma cache_key_eq_iff (u1 u2 : String) :
    ResponseCache.getCacheFileName u1 = ResponseCache.getCacheFileName u2 ↔
      md5Nat (utf8Bytes u1) = md5Nat (utf8Bytes u2) := by
  constructor
  · intro h
    have hdata := congrArg String.data h
    simp only [ResponseCache.getCacheFileName, md5hex, String.data_append] at hdata
    exact hexChars_inj (md5Nat_lt _) (md5Nat_lt _) (List.append_cancel_right hdata)
  · intro h
    simp [ResponseCache.getCacheFileName, md5hex, h]

lemma md5_collision : ∃ u1 u2 : String, u1 ≠ u2 ∧
    md5Nat (utf8Bytes u1) = md5Nat (utf8Bytes u2) := by
  obtain ⟨u1, u2, hne, heq⟩ := Finite.exists_ne_map_eq_of_infinite
    (fun s : String => (⟨md5Nat (utf8Bytes s), md5Nat_lt (utf8Bytes s)⟩ : Fin (2 ^ 128)))
  exact ⟨u1, u2, hne, congrArg Fin.val heq⟩

/-- Claim C4 as stated is false: the cache key cannot satisfy
`get_key(url1) = get_key(url2) ↔ url1 = url2` for all URL strings,
because the key factors through the 128-bit MD5 digest while there are
infinitely many URL strings, so two distinct URLs share a key by
pigeonhole. -/
theorem cache_key_injective_counterexample :
    ¬ ∀ url1 url2 : String,
        (ResponseCache.getCacheFileName url1 = ResponseCache.getCacheFileName url2 ↔
          url1 = url2) := by
  intro hall
  obtain ⟨u1, u2, hne, heq⟩ := md5_collision
  exact hne ((hall u1 u2).mp ((cache_key_eq_iff u1 u2).mpr heq))

/-- Claim C4, amended: cache-key equality coincides with equality of the
MD5 digests of the URLs — hence equal URLs always derive equal keys —
but there exist two distinct URLs whose keys collide, so key equality is
not equivalent to URL equality. -/
theorem cache_key_determinism :
    (∀ url1 url2 : String,
      (ResponseCache.getCacheFileName url1 = ResponseCache.getCacheFileName url2 ↔
        md5Nat (utf8Bytes url1) = md5Nat (utf8Bytes url2))) ∧
    (∃ u1 u2 : String, u1 ≠ u2 ∧
      ResponseCache.getCacheFileName u1 = ResponseCache.getCacheFileName u2) := by
  refine ⟨cache_key_eq_iff, ?_⟩
  obtain ⟨u1, u2, hne, heq⟩ := md5_collision
  exact ⟨u1, u2, hne, (cache_key_eq_iff u1 u2).mpr heq⟩

/-- Claim C5: with caching enabled, `set(url, bytes)` followed by
`get(url)` returns exactly `bytes` (whatever the prior store state), and
`get(url)` on a store where nothing has been set returns absent. -/
theorem cache_set_get (cacheDir url : String) (bytes : List Nat) (fs : CacheFS) :
    ResponseCache.get true cacheDir (ResponseCache.set true cacheDir fs url bytes) url =
      some bytes ∧
    ResponseCache.get true cacheDir [] url = none := by
  constructor
  · simp [ResponseCache.get, ResponseCache.set, List.lookup]
  · simp [ResponseCache.get, List.lookup]

/-- A JSON value as the researcher response parser sees it. The JS
numbers this parser touches are used integrally (years, months, days,
sequence numbers), so they are modelled as Int. -/
inductive Json where
  | null
  | bool (b : Bool)
  | num (n : Int)
  | str (s : String)
  | arr (elems : List Json)
  | obj (fields : List (String × Json))

/-- Property access `value[k]`: a field of an object, `undefined`
(absent) for every other value. -/
def Json.get : Json → String → Option Json
  | .obj fields, k => fields.lookup k
  | _, _ => none

/-- JS truthiness, as tested by the parser's `if (x)` / `x ? … : …`. -/
def Json.truthy : Json → Bool
  | .null => false
  | .bool b => b
  | .num n => n != 0
  | .str s => s != ""
  | .arr _ => true
  | .obj _ => true

/-- The `data[k] ? f(data[k]) : undefined` access pattern: the field when
present and truthy. -/
def Json.getTruthy (j : Json) (k : String) : Option Json :=
  match j.get k with
  | some v => if v.truthy then some v else none
  | none => none

/-- String-typed field access: `typeof data[k] === 'string' ? data[k] : undefined`. -/
def Json.getStr (j : Json) (k : String) : Option String :=
  match j.get k with
  | some (.str s) => some s
  | _ => none

/-- The `Array.isArray` guard on an optional value. -/
def asJsonArray : Option Json → Option (List Json)
  | some (.arr xs) => some xs
  | _ => none

/-- The candidate test of the locale resolvers:
`typeof v === 'object' && v !== null && v.lang === tag`. -/
def isObjLang (v : Json) (tag : String) : Bool :=
  match v.get "lang" with
  | some (.str s) => s == tag
  | _ => false

/-- `ResearchersAPI.extractLocalizedText` (researchers.ts lines 422-431):
prefer the entry whose `lang` is 'ja', fall back to the first entry, and
return its `text` field when that is a string. -/
def extractLocalizedText (values : Option Json) : Option String :=
  match asJsonArray values with
  | none => none
  | some [] => none
  | some (v0 :: rest) =>
    let jaEntry := (v0 :: rest).find? (fun v => isObjLang v "ja")
    (jaEntry.getD v0).getStr "text"

/-- `ResearchersAPI.extractEnglishText` (researchers.ts lines 434-442):
only the entry tagged 'en', with no fallback. -/
def extractEnglishText (values : Option Json) : Option String :=
  match asJsonArray values with
  | none => none
  | some [] => none
  | some vs =>
    match vs.find? (fun v => isObjLang v "en") with
    | some entry => entry.getStr "text"
    | none => none

/-- `ResearchersAPI.extractKanaText` (researchers.ts lines 445-453):
only the entry tagged 'ja-Kana', with no fallback. -/
def extractKanaText (values : Option Json) : Option String :=
  match asJsonArray values with
  | none => none
  | some [] => none
  | some vs =>
    match vs.find? (fun v => isObjLang v "ja-Kana") with
    | some entry => entry.getStr "text"
    | none => none

/-- `INSTITUTION_ID_KEYS` (researchers.ts lines 40-46). -/
def INSTITUTION_ID_KEYS : List String :=
  ["id:institution:erad", "id:institution:kakenhi", "id:institution:mext",
   "id:institution:jsps", "id:institution:jst"]

/-- `DEPARTMENT_ID_KEYS` (researchers.ts lines 49-54). -/
def DEPARTMENT_ID_KEYS : List String :=
  ["id:department:erad", "id:department:mext", "id:department:jsps", "id:department:jst"]

/-- `JOB_TITLE_ID_KEYS` (researchers.ts lines 57-62). -/
def JOB_TITLE_ID_KEYS : List String :=
  ["id:jobTitle:erad", "id:jobTitle:mext", "id:jobTitle:jsps", "id:jobTitle:jst"]

/-- The test `typeof v === 'string'` on an optional field value. -/
def isOptStr : Option Json → Bool
  | some (.str _) => true
  | _ => false

/-- `KEYS.map((k) => data[k]).find((v) => typeof v === 'string')`:
the value of the first key whose value is a string. -/
def firstStringValue (data : Json) (keys : List String) : Option String :=
  match (keys.map (fun k => data.get k)).find? isOptStr with
  | some (some (.str s)) => some s
  | _ => none

structure Institution where
  name : String
  code : Option String
  type : Option String
  participate : Option String
  deriving DecidableEq, Repr

structure Department where
  name : String
  code : Option String
  deriving DecidableEq, Repr

structure JobTitle where
  name : String
  code : Option String
  deriving DecidableEq, Repr

/-- The components handed to `new Date(year, month, day)` by the era
reconstruction — `month` already converted to JS 0-based convention. -/
structure JsDate where
  year : Int
  month : Int
  day : Int
  deriving DecidableEq, Repr

structure Affiliation where
  sequence : Option Int
  institution : Option Institution
  department : Option Department
  jobTitle : Option JobTitle
  startDate : Option JsDate
  endDate : Option JsDate
  deriving DecidableEq, Repr

structure PersonName where
  fullName : String
  familyName : Option String
  givenName : Option String
  familyNameReading : Option String
  givenNameReading : Option String
  deriving DecidableEq, Repr

/-- The partial Project built by `ResearchersAPI.parseProject` from a
`work:project` entry: only id / title / titleEn / rawData are populated.
The id is copied from index 0 of the nested identifier array without a
type check, so it is kept as a raw JSON value. -/
structure WorkProject where
  id : Option Json
  title : Option String
  titleEn : Option String
  rawData : Json

/-- The partial Product built by `ResearchersAPI.parseProduct` from a
`work:product` entry. -/
structure WorkProduct where
  id : Option String
  type : Option String
  title : Option String
  rawData : Json

structure Researcher where
  id : Option String
  name : Option PersonName
  currentAffiliations : Option (List Affiliation)
  historicalAffiliations : Option (List Affiliation)
  eradResearcherNumber : Option String
  jglobalId : Option String
  researchmapId : Option String
  orcid : Option String
  projects : Option (List WorkProject)
  products : Option (List WorkProduct)
  rawData : Json

/-- `ResearchersAPI.parseInstitution` (researchers.ts lines 332-343). -/
def ResearchersAPI.parseInstitution (data : Json) : Option Institution :=
  match extractLocalizedText (data.get "humanReadableValue") with
  | none => none
  | some name =>
    if name = "" then none
    else some ⟨name, firstStringValue data INSTITUTION_ID_KEYS,
      data.getStr "category:institution:kakenhi", none⟩

/-- `ResearchersAPI.parseDepartment` (researchers.ts lines 345-355). -/
def ResearchersAPI.parseDepartment (data : Json) : Option Department :=
  match extractLocalizedText (data.get "humanReadableValue") with
  | none => none
  | some name =>
    if name = "" then none
    else some ⟨name, firstStringValue data DEPARTMENT_ID_KEYS⟩

/-- `ResearchersAPI.parseJobTitle` (researchers.ts lines 357-367). -/
def ResearchersAPI.parseJobTitle (data : Json) : Option JobTitle :=
  match extractLocalizedText (data.get "humanReadableValue") with
  | none => none
  | some name =>
    if name = "" then none
    else some ⟨name, firstStringValue data JOB_TITLE_ID_KEYS⟩

/-- `ResearchersAPI.parseDateFromEra` (researchers.ts lines 409-416):
requires a numeric `commonEra:year`; `month` is 1-based in the source and
converted to 0-based, defaulting to 0 (January); `day` defaults to 1. -/
def ResearchersAPI.parseDateFromEra (data : Option Json) : Option JsDate :=
  match data with
  | none => none
  | some j =>
    if ¬ j.truthy then none
    else
      match j.get "commonEra:year" with
      | some (.num y) =>
        some ⟨y,
          (match j.get "month" with | some (.num m) => m - 1 | _ => 0),
          (match j.get "day" with | some (.num d) => d | _ => 1)⟩
      | _ => none

/-- `ResearchersAPI.parseAffiliation` (researchers.ts lines 307-330):
discarded entirely when institution, department and job title all fail to
resolve. -/
def ResearchersAPI.parseAffiliation (data : Json) : Option Affiliation :=
  let institution := (data.getTruthy "affiliation:institution").bind
    ResearchersAPI.parseInstitution
  let department := (data.getTruthy "affiliation:department").bind
    ResearchersAPI.parseDepartment
  let jobTitle := (data.getTruthy "affiliation:jobTitle").bind
    ResearchersAPI.parseJobTitle
  if institution.isNone && department.isNone && jobTitle.isNone then none
  else
    some ⟨(match data.get "sequence" with | some (.num n) => some n | _ => none),
      institution, department, jobTitle,
      ResearchersAPI.parseDateFromEra (data.get "since"),
      ResearchersAPI.parseDateFromEra (data.get "until")⟩

/-- The truthiness test on an optional string (`familyName && givenName`). -/
def truthyStr : Option String → Bool
  | some s => s != ""
  | none => false

/-- `ResearchersAPI.parsePersonName` (researchers.ts lines 288-305). -/
def ResearchersAPI.parsePersonName (nameData : Json) : PersonName :=
  let familyNameValues := nameData.get "name:familyName"
  let givenNameValues := nameData.get "name:givenName"
  let familyName := extractLocalizedText familyNameValues
  let givenName := extractLocalizedText givenNameValues
  let familyNameReading := extractKanaText familyNameValues
  let givenNameReading := extractKanaText givenNameValues
  let fullName :=
    if truthyStr familyName && truthyStr givenName then
      familyName.getD "" ++ " " ++ givenName.getD ""
    else
      familyName.getD (givenName.getD "Unknown")
  ⟨fullName, familyName, givenName, familyNameReading, givenNameReading⟩

/-- The single-valued external identifier pattern of `parseResearcher`:
`Array.isArray(x) && x.length > 0 && typeof x[0] === 'string'` then take
index 0. -/
def firstArrayString (data : Json) (k : String) : Option String :=
  match data.get k with
  | some (.arr (.str s :: _)) => some s
  | _ => none

/-- `ResearchersAPI.parseProject` (researchers.ts lines 370-387), the
partial extraction of an embedded `work:project` entry. -/
def ResearchersAPI.parseProject (data : Json) : WorkProject :=
  let projectIds := (data.get "recordSource").bind (fun rs => rs.get "id:project:kakenhi")
  let id := match projectIds with
    | some (.arr (x :: _)) => some x
    | _ => none
  let titleValues := match data.get "title" with
    | some (.arr (t0 :: _)) => t0.get "humanReadableValue"
    | _ => none
  ⟨id, extractLocalizedText titleValues, extractEnglishText titleValues, data⟩

/-- `ResearchersAPI.parseProduct` (researchers.ts lines 390-403), the
partial extraction of an embedded `work:product` entry. -/
def ResearchersAPI.parseProduct (data : Json) : WorkProduct :=
  ⟨firstArrayString data "accn",
   data.getStr "resourceType",
   (data.get "title:main").bind (fun tm => tm.getStr "text"),
   data⟩

/-- `ResearchersAPI.parseResearcher` (researchers.ts lines 216-286). -/
def ResearchersAPI.parseResearcher (data : Json) : Researcher :=
  let currentAffiliations :=
    match data.get "affiliations:current" with
    | some (.arr items) => items.filterMap ResearchersAPI.parseAffiliation
    | _ => []
  let historicalAffiliations :=
    match data.get "affiliations:history" with
    | some (.arr items) => some (items.filterMap ResearchersAPI.parseAffiliation)
    | _ => none
  let projects :=
    match data.get "work:project" with
    | some (.arr items) => some (items.map ResearchersAPI.parseProject)
    | _ => none
  let products :=
    match data.get "work:product" with
    | some (.arr items) => some (items.map ResearchersAPI.parseProduct)
    | _ => none
  ⟨data.getStr "accn",
   (data.getTruthy "name").map ResearchersAPI.parsePersonName,
   some currentAffiliations,
   historicalAffiliations,
   firstArrayString data "id:person:erad",
   firstArrayString data "id:person:jglobal",
   firstArrayString data "id:person:researchmap",
   firstArrayString data "id:orcid",
   projects,
   products,
   data⟩

/-- A well-formed language/text candidate as a JSON object. -/
def encodeCand (p : String × String) : Json :=
  .obj [("lang", .str p.1), ("text", .str p.2)]

lemma isObjLang_encode (p : String × String) (tag : String) :
    isObjLang (encodeCand p) tag = (p.1 == tag) := by
  simp [isObjLang, encodeCand, Json.get, List.lookup]

lemma getStr_encode (p : String × String) : (encodeCand p).getStr "text" = some p.2 := rfl

lemma extractLocalizedText_cons (v0 : Json) (rest : List Json) :
    extractLocalizedText (some (.arr (v0 :: rest))) =
      (((v0 :: rest).find? (fun v => isObjLang v "ja")).getD v0).getStr "text" := rfl

/-- Claim C6: over language/text candidates, the locale resolver returns
the text of the first candidate tagged 'ja'; with no 'ja' candidate it
returns the text of the first candidate in source order; an empty or
absent sequence yields absence; and [{en, X}, {ja, Y}] resolves to Y. -/
theorem locale_preference :
    (∀ cands : List (String × String),
      extractLocalizedText (some (.arr (cands.map encodeCand))) =
        (match cands.find? (fun p => p.1 == "ja") with
         | some p => some p.2
         | none => cands.head?.map Prod.snd)) ∧
    extractLocalizedText none = none ∧
    extractLocalizedText (some (.arr [])) = none ∧
    extractLocalizedText (some (.arr [encodeCand ("en", "X"), encodeCand ("ja", "Y")])) =
      some "Y" := by
  refine ⟨?_, rfl, rfl, by decide⟩
  intro cands
  cases cands with
  | nil => rfl
  | cons c cs =>
    rw [List.map_cons, extractLocalizedText_cons, ← List.map_cons, List.find?_map]
    have hpred : ((fun v => isObjLang v "ja") ∘ encodeCand) =
        (fun p : String × String => p.1 == "ja") :=
      funext fun p => isObjLang_encode p "ja"
    rw [hpred]
    cases hf : (c :: cs).find? (fun p => p.1 == "ja") with
    | some p => simp [getStr_encode]
    | none => simp [getStr_encode]

/-- The value of a field when it is a string, the spec-side elementary
step of the priority-ordered identifier-key search. -/
def optStr : Option Json → Option String
  | some (.str s) => some s
  | _ => none

lemma firstStringValue_cons (data : Json) (k : String) (ks : List String) :
    firstStringValue data (k :: ks) =
      (match data.get k with
       | some (.str s) => some s
       | _ => firstStringValue data ks) := by
  have hbase : ∀ (o : Option Json), isOptStr o = false →
      ((o :: ks.map (fun k2 => data.get k2)).find? isOptStr) =
        (ks.map (fun k2 => data.get k2)).find? isOptStr := by
    intro o ho
    exact List.find?_cons_of_neg _ (by simp [ho])
  cases hv : data.get k with
  | none => simp only [firstStringValue, List.map_cons, hv, hbase none rfl]
  | some v =>
    cases v with
    | str s =>
      simp only [firstStringValue, List.map_cons, hv]
      rw [List.find?_cons_of_pos _ (by simp [isOptStr])]
    | null => simp only [firstStringValue, List.map_cons, hv, hbase (some .null) rfl]
    | bool b => simp only [firstStringValue, List.map_cons, hv, hbase (some (.bool b)) rfl]
    | num n => simp only [firstStringValue, List.map_cons, hv, hbase (some (.num n)) rfl]
    | arr xs => simp only [firstStringValue, List.map_cons, hv, hbase (some (.arr xs)) rfl]
    | obj fs => simp only [firstStringValue, List.map_cons, hv, hbase (some (.obj fs)) rfl]

lemma firstStringValue_eq (data : Json) : ∀ keys : List String,
    firstStringValue data keys = keys.findSome? (fun k => optStr (data.get k)) := by
  intro keys
  induction keys with
  | nil => rfl
  | cons k ks ih =>
    rw [firstStringValue_cons, List.findSome?_cons]
    cases hv : data.get k with
    | none => simp [optStr, ih]
    | some v => cases v <;> simp [optStr, ih]

/-- An affiliation institution object carrying both an eRad and a MEXT
identifier. -/
def instBothKeys : Json :=
  .obj [("humanReadableValue", .arr [.obj [("lang", .str "ja"), ("text", .str "Univ A")]]),
        ("id:institution:erad", .str "E1"), ("id:institution:mext", .str "M1")]

/-- The same affiliation institution object carrying only the MEXT
identifier. -/
def instMextOnly : Json :=
  .obj [("humanReadableValue", .arr [.obj [("lang", .str "ja"), ("text", .str "Univ A")]]),
        ("id:institution:mext", .str "M1")]

/-- Claim C7: the emitted institution/department/jobTitle code is the
value of the first key in the fixed priority-ordered list whose value is
a string; and concretely, erad+mext resolves to the eRad value while mext
alone resolves to the MEXT value. -/
theorem id_key_priority :
    (∀ (data : Json) (inst : Institution),
      ResearchersAPI.parseInstitution data = some inst →
        inst.code = INSTITUTION_ID_KEYS.findSome? (fun k => optStr (data.get k))) ∧
    (∀ (data : Json) (dept : Department),
      ResearchersAPI.parseDepartment data = some dept →
        dept.code = DEPARTMENT_ID_KEYS.findSome? (fun k => optStr (data.get k))) ∧
    (∀ (data : Json) (jt : JobTitle),
      ResearchersAPI.parseJobTitle data = some jt →
        jt.code = JOB_TITLE_ID_KEYS.findSome? (fun k => optStr (data.get k))) ∧
    (ResearchersAPI.parseInstitution instBothKeys).map Institution.code =
      some (some "E1") ∧
    (ResearchersAPI.parseInstitution instMextOnly).map Institution.code =
      some (some "M1") := by
  refine ⟨?_, ?_, ?_, by decide, by decide⟩
  · intro data inst h
    cases hname : extractLocalizedText (data.get "humanReadableValue") with
    | none =>
      simp only [ResearchersAPI.parseInstitution, hname] at h
      exact absurd h (by simp)
    | some name =>
      simp only [ResearchersAPI.parseInstitution, hname] at h
      by_cases he : name = ""
      · rw [if_pos he] at h; exact absurd h (by simp)
      · rw [if_neg he] at h
        rw [← Option.some.inj h]
        show firstStringValue data INSTITUTION_ID_KEYS = _
        exact firstStringValue_eq data _
  · intro data dept h
    cases hname : extractLocalizedText (data.get "humanReadableValue") with
    | none =>
      simp only [ResearchersAPI.parseDepartment, hname] at h
      exact absurd h (by simp)
    | some name =>
      simp only [ResearchersAPI.parseDepartment, hname] at h
      by_cases he : name = ""
      · rw [if_pos he] at h; exact absurd h (by simp)
      · rw [if_neg he] at h
        rw [← Option.some.inj h]
        show firstStringValue data DEPARTMENT_ID_KEYS = _
        exact firstStringValue_eq data _
  · intro data jt h
    cases hname : extractLocalizedText (data.get "humanReadableValue") with
    | none =>
      simp only [ResearchersAPI.parseJobTitle, hname] at h
      exact absurd h (by simp)
    | some name =>
      simp only [ResearchersAPI.parseJobTitle, hname] at h
      by_cases he : name = ""
      · rw [if_pos he] at h; exact absurd h (by simp)
      · rw [if_neg he] at h
        rw [← Option.some.inj h]
        show firstStringValue data JOB_TITLE_ID_KEYS = _
        exact firstStringValue_eq data _

theorem id_key_priority_witness :
    (⟨"Univ A", some "E1", none, none⟩ : Institution).code =
      INSTITUTION_ID_KEYS.findSome? (fun k => optStr (instBothKeys.get k)) ∧
    (⟨"Univ A", some "M1", none, none⟩ : Institution).code =
      INSTITUTION_ID_KEYS.findSome? (fun k => optStr (instMextOnly.get k)) := by
  constructor
  · exact id_key_priority.1 instBothKeys ⟨"Univ A", some "E1", none, none⟩ (by decide)
  · exact id_key_priority.1 instMextOnly ⟨"Univ A", some "M1", none, none⟩ (by decide)

/-- An era-structured date object with optional year, month and day
fields. -/
def eraDateObj (y m d : Option Json) : Json :=
  .obj ((match y with | some v => [("commonEra:year", v)] | none => []) ++
        (match m with | some v => [("month", v)] | none => []) ++
        (match d with | some v => [("day", v)] | none => []))

/-- The `typeof v === 'number'` test on an optional field value. -/
def isNumOpt : Option Json → Bool
  | some (.num _) => true
  | _ => false

/-- Claim C8: a non-numeric `commonEra:year` produces no date; with a
numeric year the produced date carries that year, the numeric `month`
converted from 1-based to 0-based (defaulting to January = 0 when absent
or non-numeric), and the numeric `day` (defaulting to 1 when absent or
non-numeric). -/
theorem era_date_reconstruction :
    (∀ y m d : Int,
      ResearchersAPI.parseDateFromEra
          (some (eraDateObj (some (.num y)) (some (.num m)) (some (.num d)))) =
        some ⟨y, m - 1, d⟩) ∧
    (∀ y : Int,
      ResearchersAPI.parseDateFromEra (some (eraDateObj (some (.num y)) none none)) =
        some ⟨y, 0, 1⟩) ∧
    (∀ (y : Int) (m d : Json), isNumOpt (some m) = false → isNumOpt (some d) = false →
      ResearchersAPI.parseDateFromEra
          (some (eraDateObj (some (.num y)) (some m) (some d))) =
        some ⟨y, 0, 1⟩) ∧
    (∀ j : Json, isNumOpt (j.get "commonEra:year") = false →
      ResearchersAPI.parseDateFromEra (some j) = none) := by
  refine ⟨fun y m d => rfl, fun y => rfl, ?_, ?_⟩
  · intro y m d hm hd
    cases m <;> cases d <;> first | rfl | simp [isNumOpt] at hm hd
  · intro j hy
    simp only [ResearchersAPI.parseDateFromEra]
    by_cases ht : j.truthy = true
    · rw [if_neg (by simp [ht])]
      cases hv : j.get "commonEra:year" with
      | none => rfl
      | some v => cases v <;> simp_all [isNumOpt]
    · rw [if_pos (by simp_all)]

theorem era_date_reconstruction_witness :
    ResearchersAPI.parseDateFromEra
        (some (eraDateObj (some (.num 2020)) (some (.str "April")) (some .null))) =
      some ⟨2020, 0, 1⟩ ∧
    ResearchersAPI.parseDateFromEra (some (.obj [("commonEra:year", .str "2020")])) =
      none := by
  constructor
  · exact era_date_reconstruction.2.2.1 2020 (.str "April") .null rfl rfl
  · exact era_date_reconstruction.2.2.2 (.obj [("commonEra:year", .str "2020")]) rfl

/-- The `Array.isArray` test on an optional field value. -/
def isArrOpt : Option Json → Bool
  | some (.arr _) => true
  | _ => false

/-- Claim C10: every parsed Researcher carries currentAffiliations as a
present (possibly empty) list — also when the 'affiliations:current'
source key is missing or not an array, or when all its entries are
discarded — whereas historicalAffiliations is present exactly when the
'affiliations:history' key is an array. -/
theorem affiliation_presence :
    (∀ data : Json,
      (ResearchersAPI.parseResearcher data).currentAffiliations.isSome = true) ∧
    (∀ data : Json,
      (ResearchersAPI.parseResearcher data).historicalAffiliations.isSome =
        isArrOpt (data.get "affiliations:history")) ∧
    (∀ data : Json, isArrOpt (data.get "affiliations:current") = false →
      (ResearchersAPI.parseResearcher data).currentAffiliations = some []) ∧
    (∀ (data : Json) (items : List Json),
      data.get "affiliations:current" = some (.arr items) →
      (∀ x ∈ items, ResearchersAPI.parseAffiliation x = none) →
      (ResearchersAPI.parseResearcher data).currentAffiliations = some []) := by
  refine ⟨fun data => rfl, ?_, ?_, ?_⟩
  · intro data
    simp only [ResearchersAPI.parseResearcher]
    cases hv : data.get "affiliations:history" with
    | none => simp [isArrOpt]
    | some v => cases v <;> simp [isArrOpt]
  · intro data h
    simp only [ResearchersAPI.parseResearcher]
    cases hv : data.get "affiliations:current" with
    | none => rfl
    | some v => cases v <;> simp_all [isArrOpt]
  · intro data items hv hall
    simp only [ResearchersAPI.parseResearcher, hv]
    simp [List.filterMap_eq_nil_iff.mpr hall]

theorem affiliation_presence_witness :
    (ResearchersAPI.parseResearcher (.obj [("accn", .str "R1")])).currentAffiliations =
      some [] ∧
    (ResearchersAPI.parseResearcher
        (.obj [("affiliations:current", .arr [.obj []])])).currentAffiliations =
      some [] := by
  constructor
  · exact affiliation_presence.2.2.1 (.obj [("accn", .str "R1")]) rfl
  · exact affiliation_presence.2.2.2 (.obj [("affiliations:current", .arr [.obj []])])
      [.obj []] rfl (by decide)

end Kaken
